import Mathlib

/-!
Verification of the pro-wallet NFC scanner component.

The source under scrutiny is the React Native component `NfcScanner`
(src/unnamed/part_000) together with its secure-storage hook
(src/unnamed/part_001).  The component owns the session engine state
(`isScanning`, `emittingItem`, `hceSession`, `nfcStatus`, `scannedItems`),
the archive operations (prepend on scan completion, filter on delete), the
scan-outcome classification (`readNdef`), the emission controller
(`handleEmitItem`) and the diagnostic renderer (`parseNdefMessage`).

The NDEF codec itself (`Ndef.textRecord`, `Ndef.text.decodePayload`,
`Ndef.uri.decodePayload`, `Ndef.util.bytesToHexString`, `Ndef.isType`) lives
in the external react-native-nfc-manager library and is not under src/;
those definitions are modelled from the spec (section 4.1), as marked on each
doc comment.  Bytes are modelled as `Nat` values below 256; strings whose
characters are ASCII have UTF-8 byte sequences equal to their code-point
sequences, which is the range every claim exercises.
-/

/-- Modelled from the spec: UTF-8 bytes of a string.  For ASCII strings each
character is a single byte equal to its code point, which is the only range
the claims exercise. -/
def utf8Bytes (s : String) : List Nat :=
  s.toList.map Char.toNat

/-- Hexadecimal digit character, lowercase, as produced by the JavaScript
number method toString with radix 16. -/
def hexDigitChar (n : Nat) : Char :=
  if n < 10 then Char.ofNat (48 + n) else Char.ofNat (87 + n)

/-- Two lowercase hex digits for one byte (toString(16) padded to width 2). -/
def byteToHex (b : Nat) : String :=
  String.mk [hexDigitChar (b / 16 % 16), hexDigitChar (b % 16)]

/-- Modelled from the spec: `Ndef.util.bytesToHexString` of the
react-native-nfc-manager library (the NDEF codec is not under src/).  Renders
a byte sequence as concatenated two-digit lowercase hex. -/
def Ndef.util.bytesToHexString (bytes : List Nat) : String :=
  String.join (bytes.map byteToHex)

/-- One decoded NDEF record as delivered by the platform driver: Type Name
Format, type bytes, optional id bytes, raw payload bytes. -/
structure NdefRecord where
  tnf : Nat
  type : List Nat
  id : List Nat
  payload : List Nat
deriving DecidableEq, Repr

/-- Modelled from the spec: the well-known Type Name Format value. -/
def Ndef.TNF_WELL_KNOWN : Nat := 1

/-- Modelled from the spec: the well-known text record type, the byte of
letter T. -/
def Ndef.RTD_TEXT : List Nat := [0x54]

/-- Modelled from the spec: the well-known URI record type, the byte of
letter U. -/
def Ndef.RTD_URI : List Nat := [0x55]

/-- Modelled from the spec: `Ndef.isType` of the react-native-nfc-manager
library, true when the record carries the given Type Name Format and type
bytes. -/
def Ndef.isType (record : NdefRecord) (tnf : Nat) (type : List Nat) : Bool :=
  record.tnf == tnf && record.type == type

/-- Modelled from the spec: the fixed language code the text encoder embeds
in every record it builds. -/
def Ndef.textLanguageCode : String := "en"

/-- Modelled from the spec: `Ndef.textRecord` of the react-native-nfc-manager
library (the NDEF codec is not under src/).  Builds a single well-known text
record whose payload is the status byte (language-code length in bits 0 to 5,
UTF-16 bit unset), the fixed language code, then the UTF-8 bytes of the
input. -/
def Ndef.textRecord (text : String) : NdefRecord :=
  { tnf := Ndef.TNF_WELL_KNOWN
    type := Ndef.RTD_TEXT
    id := []
    payload :=
      [(utf8Bytes Ndef.textLanguageCode).length]
        ++ utf8Bytes Ndef.textLanguageCode ++ utf8Bytes text }

/-- Modelled from the spec: `Ndef.text.decodePayload` of the
react-native-nfc-manager library (the NDEF codec is not under src/).  The
payload of a well-known text record is one status byte (bits 0 to 5 hold the
language-code length), the language code, then the text; decoding returns
the text only and fails on a truncated payload (missing status byte or a
language code cut short), per the failure policy of spec section 4.1. -/
def Ndef.text.decodePayload (data : List Nat) : Option String :=
  match data with
  | [] => none
  | status :: rest =>
      let languageCodeLength := status % 64
      if rest.length < languageCodeLength then none
      else some (String.mk ((rest.drop languageCodeLength).map Char.ofNat))

/-- Modelled from the spec: the fixed URI abbreviation lookup table of the
NFC Forum well-known URI record, indexed by the one-byte abbreviation code
(code 0 means no abbreviation). -/
def Ndef.uri.protocols : List String :=
  ["", "http://www.", "https://www.", "http://", "https://", "tel:",
   "mailto:", "ftp://anonymous:anonymous@", "ftp://ftp.", "ftps://",
   "sftp://", "smb://", "nfs://", "ftp://", "dav://", "news:", "telnet://",
   "imap:", "rfc822:", "pop:", "sip:", "sips:", "tftp:", "btspp://",
   "btl2cap://", "btgoep://", "tcpobex://", "irdaobex://", "file://",
   "urn:epc:id:", "urn:epc:tag:", "urn:epc:pat:", "urn:epc:raw:", "urn:epc:",
   "urn:nfc:"]

/-- Modelled from the spec: `Ndef.uri.decodePayload` of the
react-native-nfc-manager library (the NDEF codec is not under src/).  The
payload is one abbreviation-code byte then the URI suffix; decoding expands
the code against the fixed table and fails on a truncated payload or an
abbreviation code outside the table, per the failure policy of spec
section 4.1. -/
def Ndef.uri.decodePayload (data : List Nat) : Option String :=
  match data with
  | [] => none
  | code :: rest =>
      match Ndef.uri.protocols.get? code with
      | none => none
      | some proto => some (proto ++ String.mk (rest.map Char.ofNat))

/-- Rendered diagnostic header for one record (lines 277 to 283 of the
source): one-based index, TNF in decimal and two-digit hex, type as hex, id
as hex only when non-empty. -/
def renderRecordHeader (index : Nat) (record : NdefRecord) : String :=
  "Record " ++ toString (index + 1) ++ ":\n"
    ++ "  TNF: " ++ toString record.tnf ++ " (0x" ++ byteToHex record.tnf ++ ")\n"
    ++ "  Type: " ++ Ndef.util.bytesToHexString record.type ++ "\n"
    ++ (if record.id.length > 0 then
          "  ID: " ++ Ndef.util.bytesToHexString record.id ++ "\n"
        else "")

/-- Rendered decoded-value line for one record (lines 286 to 292 of the
source): text branch for well-known T, URI branch for well-known U, raw hex
payload otherwise.  The source applies the decoders with no exception
handling, so a decode failure propagates; `none` models that propagating
failure. -/
def renderRecordBody (record : NdefRecord) : Option String :=
  if Ndef.isType record Ndef.TNF_WELL_KNOWN Ndef.RTD_TEXT then
    (Ndef.text.decodePayload record.payload).map
      (fun t => "  Decoded: " ++ t ++ "\n")
  else if Ndef.isType record Ndef.TNF_WELL_KNOWN Ndef.RTD_URI then
    (Ndef.uri.decodePayload record.payload).map
      (fun u => "  Decoded: " ++ u ++ "\n")
  else
    some ("  Payload: " ++ Ndef.util.bytesToHexString record.payload ++ "\n")

/-- Renders the records in order from the given zero-based index, mirroring
the forEach loop of the source; an uncaught decode failure on any record
aborts the whole loop, which `Option.bind` models. -/
def renderRecords : Nat → List NdefRecord → Option String
  | _, [] => some (String.mk [])
  | index, record :: rest =>
      (renderRecordBody record).bind (fun body =>
        (renderRecords (index + 1) rest).map (fun tail =>
          renderRecordHeader index record ++ body ++ tail))

/-- Embeds `parseNdefMessage` (lines 266 to 296 of the source) on an already
normalized record list: empty input yields the fixed no-message text,
otherwise the per-record renders are concatenated and trimmed; a decode
failure anywhere aborts the render (`none`), because the source wraps the
decoders in no try/catch. -/
def parseNdefMessage (records : List NdefRecord) : Option String :=
  if records.isEmpty then some ("No NDEF message found.")
  else (renderRecords 0 records).map String.trim

/-- The driver-level tag snapshot consumed by `readNdef` (fields of the
TagEvent the source reads): optional hardware id bytes, optional technology
list, optional type text, optional max size, optional record list. -/
structure TagEvent where
  id : Option (List Nat)
  techTypes : Option (List String)
  type : Option String
  maxSize : Option Nat
  ndefMessage : Option (List NdefRecord)
deriving DecidableEq, Repr

/-- One persisted scan (interface ScannedItem, lines 12 to 17 of the
source). -/
structure ScannedItem where
  id : String
  tagDetails : String
  ndefMessage : List NdefRecord
  createdAt : String
deriving DecidableEq, Repr

/-- The tag-details summary text built in `readNdef` (lines 100 to 104 of
the source), with the not-available fallback for each absent field. -/
def tagDetailsText (tag : TagEvent) : String :=
  "--- Tag Details ---\n"
    ++ "ID: " ++ (match tag.id with
        | some bs => Ndef.util.bytesToHexString bs
        | none => "N/A") ++ "\n"
    ++ "Tech Types: " ++ (match tag.techTypes with
        | some ts => String.intercalate (", ") ts
        | none => "N/A") ++ "\n"
    ++ "Type: " ++ (match tag.type with
        | some t => t
        | none => "N/A") ++ "\n"
    ++ "Max Size: " ++ (match tag.maxSize with
        | some n => toString n
        | none => "N/A") ++ " bytes\n"

/-- The new ScannedItem built at scan completion (lines 106 to 111 of the
source): the id is the hex tag id concatenated with the epoch-milliseconds
timestamp when the tag id is present, the timestamp alone otherwise;
`now` stands for Date.now() and `nowIso` for the ISO rendering of the same
creation instant. -/
def mkScannedItem (tag : TagEvent) (now : Nat) (nowIso : String) : ScannedItem :=
  { id := match tag.id with
      | some bs => Ndef.util.bytesToHexString bs ++ toString now
      | none => toString now
    tagDetails := tagDetailsText tag
    ndefMessage := tag.ndefMessage.getD []
    createdAt := nowIso }

/-- Infix test on character lists, the recursion behind the JavaScript
string method includes. -/
def charsContain (needle : List Char) : List Char → Bool
  | [] => needle.isEmpty
  | c :: rest => needle.isPrefixOf (c :: rest) || charsContain needle rest

/-- The JavaScript string method includes: true when `needle` occurs
contiguously inside `hay`. -/
def stringIncludes (hay needle : String) : Bool :=
  charsContain needle.toList hay.toList

/-- Fixed status strings set by `readNdef`. -/
def statusScanning : String := "Scanning..."

/-- Status set when a tag was read and archived. -/
def statusScanSuccessful : String := "Scan successful!"

/-- Status set when discovery completed with no tag present. -/
def statusNoTagFound : String := "No tag found. Try again."

/-- Status set when the failure was classified as a cancellation. -/
def statusScanCancelled : String := "Scan cancelled."

/-- Status set when the failure was a genuine driver error. -/
def statusScanFailed : String := "Scan failed. Please try again."

/-- Cancellation signature fragment looked for in the error text. -/
def userCancelToken : String := "UserCancel"

/-- Second cancellation signature fragment looked for in the error text. -/
def cancelledToken : String := "cancelled"

/-- The catch-block classification of `readNdef` (lines 120 to 129 of the
source): a failure is a cancellation when the cancellation flag is set or the
error text carries a cancellation signature; otherwise it is a genuine scan
failure. -/
def scanErrorStatus (isCancelling : Bool) (errorString : String) : String :=
  if isCancelling || stringIncludes errorString userCancelToken
      || stringIncludes errorString cancelledToken then
    statusScanCancelled
  else
    statusScanFailed

/-- One call into the HCE channel driver. -/
inductive HceCall
  | setApplication (content : String) (writable : Bool)
  | setEnabled (enabled : Bool)
deriving DecidableEq, Repr

/-- Synchronous reply surfaced by an engine entry point. -/
inductive Reply
  | silent
  | scanStopped
  | cannotScanWhileEmitting
  | scanStarted
  | hceUnavailable
  | cannotEmitWhileScanning
  | emitToggledOff
  | emitStarted
  | emulationError
  | unhandledFailure
deriving DecidableEq, Repr

/-- True for the replies that reject a request outright (an alert with an
early return in the source). -/
def Reply.isRejection : Reply → Bool
  | Reply.hceUnavailable => true
  | Reply.cannotEmitWhileScanning => true
  | Reply.cannotScanWhileEmitting => true
  | _ => false

/-- Result of one `handleEmitItem` run: the emitting-item state after the
run, the HCE driver calls issued in order, and the synchronous reply. -/
structure EmitResult where
  emittingItem : Option String
  calls : List HceCall
  reply : Reply
deriving DecidableEq, Repr

/-- The text content the emission controller derives from an item id: the
source decodes the payload of the freshly encoded text record, which strips
the status byte and language code back off. -/
def emitContent (id : String) : String :=
  String.mk ((utf8Bytes id).map Char.ofNat)

/-- Embeds `handleEmitItem` (lines 144 to 187 of the source).  `driverOk`
gives the outcome of each HCE driver call (true means the awaited promise
resolved).  Branches in source order: no session, scanning, toggle-off of
the currently emitting item, then encode-decode and the setApplication /
setEnabled(true) sequence; a rejected await outside the try block aborts the
handler with the state unchanged, and a rejection inside the try block is
caught, leaving the state unchanged as well. -/
def handleEmitItem (driverOk : HceCall → Bool) (hceSession : Bool)
    (isScanning : Bool) (emittingItem : Option String)
    (item : ScannedItem) : EmitResult :=
  if !hceSession then
    { emittingItem := emittingItem, calls := [], reply := Reply.hceUnavailable }
  else if isScanning then
    { emittingItem := emittingItem, calls := [],
      reply := Reply.cannotEmitWhileScanning }
  else if emittingItem == some item.id then
    if driverOk (HceCall.setEnabled false) then
      { emittingItem := none, calls := [HceCall.setEnabled false],
        reply := Reply.emitToggledOff }
    else
      { emittingItem := emittingItem, calls := [HceCall.setEnabled false],
        reply := Reply.unhandledFailure }
  else
    match Ndef.text.decodePayload (Ndef.textRecord item.id).payload with
    | none =>
        { emittingItem := emittingItem, calls := [],
          reply := Reply.unhandledFailure }
    | some decodedText =>
        if driverOk (HceCall.setApplication decodedText false) then
          if driverOk (HceCall.setEnabled true) then
            { emittingItem := some item.id,
              calls := [HceCall.setApplication decodedText false,
                        HceCall.setEnabled true],
              reply := Reply.emitStarted }
          else
            { emittingItem := emittingItem,
              calls := [HceCall.setApplication decodedText false,
                        HceCall.setEnabled true],
              reply := Reply.emulationError }
        else
          { emittingItem := emittingItem,
            calls := [HceCall.setApplication decodedText false],
            reply := Reply.emulationError }

/-- Result of one `handleDeleteItem` run. -/
structure DeleteResult where
  emittingItem : Option String
  scannedItems : List ScannedItem
  calls : List HceCall
deriving DecidableEq, Repr

/-- Embeds `handleDeleteItem` (lines 135 to 142 of the source): when the
deleted item is the one being emitted, the HCE channel is disabled first
(skipped silently when no session exists; a rejected disable aborts the
handler before the filter); then every item with the given id is filtered
out. -/
def handleDeleteItem (driverOk : HceCall → Bool) (hceSession : Bool)
    (emittingItem : Option String) (scannedItems : List ScannedItem)
    (id : String) : DeleteResult :=
  if emittingItem == some id then
    if hceSession then
      if driverOk (HceCall.setEnabled false) then
        { emittingItem := none,
          scannedItems := scannedItems.filter (fun item => item.id != id),
          calls := [HceCall.setEnabled false] }
      else
        { emittingItem := emittingItem, scannedItems := scannedItems,
          calls := [HceCall.setEnabled false] }
    else
      { emittingItem := none,
        scannedItems := scannedItems.filter (fun item => item.id != id),
        calls := [] }
  else
    { emittingItem := emittingItem,
      scannedItems := scannedItems.filter (fun item => item.id != id),
      calls := [] }

/-- The engine state owned by the component: the scanning flag, the id of
the item being emitted (none when idle), whether an HCE session was
obtained, the status line, and the archive list (the secure-storage value,
with null normalized to the empty list as every consumer of `scannedItems`
does). -/
structure EngineState where
  isScanning : Bool
  emittingItem : Option String
  hceSession : Bool
  nfcStatus : String
  scannedItems : List ScannedItem
deriving DecidableEq, Repr

/-- The state at mount: the useState initial values. -/
def initialState : EngineState :=
  { isScanning := false
    emittingItem := none
    hceSession := false
    nfcStatus := "Checking NFC availability..."
    scannedItems := [] }

/-- Outcome the radio driver delivers to the pending `readNdef` scan:
a tag, a null tag, or a rejected promise carrying an error text. -/
inductive ScanOutcome
  | tagFound (tag : TagEvent)
  | noTag
  | driverError (errorString : String)

/-- External events driving the engine: the HCE session arriving from
`initApp`, a press of the scan button (the synchronous head of `readNdef`),
the asynchronous completion of a pending scan (with the value the
cancellation flag holds at that instant, the outcome, and the clock
readings), an emit press, and a delete press. -/
inductive Event
  | hceReady
  | scanPress
  | scanComplete (isCancelling : Bool) (outcome : ScanOutcome) (now : Nat)
      (nowIso : String)
  | emitPress (item : ScannedItem) (driverOk : HceCall → Bool)
  | deletePress (id : String) (driverOk : HceCall → Bool)

/-- Result of one engine step: the new state, the synchronous reply, and the
HCE driver calls issued. -/
structure StepResult where
  state : EngineState
  reply : Reply
  hceCalls : List HceCall

/-- One engine step.  scanPress follows `readNdef` lines 75 to 95: while
scanning it cancels and clears the flag (stop); while an item is emitting it
rejects; otherwise it enters scanning.  scanComplete follows lines 98 to
132: a found tag is archived at the head of the list, a null tag and a
rejection set their classified status, and the finally block always clears
the scanning flag.  emitPress and deletePress delegate to the handlers
above. -/
def step (s : EngineState) : Event → StepResult
  | Event.hceReady =>
      { state := { s with hceSession := true }, reply := Reply.silent,
        hceCalls := [] }
  | Event.scanPress =>
      if s.isScanning then
        { state := { s with isScanning := false }, reply := Reply.scanStopped,
          hceCalls := [] }
      else if s.emittingItem.isSome then
        { state := s, reply := Reply.cannotScanWhileEmitting, hceCalls := [] }
      else
        { state := { s with isScanning := true, nfcStatus := statusScanning },
          reply := Reply.scanStarted, hceCalls := [] }
  | Event.scanComplete isCancelling outcome now nowIso =>
      match outcome with
      | ScanOutcome.tagFound tag =>
          { state := { s with
              scannedItems := mkScannedItem tag now nowIso :: s.scannedItems,
              nfcStatus := statusScanSuccessful,
              isScanning := false },
            reply := Reply.silent, hceCalls := [] }
      | ScanOutcome.noTag =>
          { state := { s with
              nfcStatus := statusNoTagFound,
              isScanning := false },
            reply := Reply.silent, hceCalls := [] }
      | ScanOutcome.driverError errorString =>
          { state := { s with
              nfcStatus := scanErrorStatus isCancelling errorString,
              isScanning := false },
            reply := Reply.silent, hceCalls := [] }
  | Event.emitPress item driverOk =>
      let r := handleEmitItem driverOk s.hceSession s.isScanning
        s.emittingItem item
      { state := { s with emittingItem := r.emittingItem }, reply := r.reply,
        hceCalls := r.calls }
  | Event.deletePress id driverOk =>
      let r := handleDeleteItem driverOk s.hceSession s.emittingItem
        s.scannedItems id
      { state := { s with
          emittingItem := r.emittingItem,
          scannedItems := r.scannedItems },
        reply := Reply.silent, hceCalls := r.calls }

/-- States the engine can be in: the mount state and everything an event can
produce from a reachable state. -/
inductive Reachable : EngineState → Prop
  | init : Reachable initialState
  | next (s : EngineState) (e : Event) (h : Reachable s) :
      Reachable (step s e).state

/-- The session mode of the spec data model. -/
inductive SessionMode
  | idle
  | scanning
  | emitting (id : String)
deriving DecidableEq, Repr

/-- The mode an engine state denotes: scanning while the scan flag is up,
else emitting when an item id is set, else idle. -/
def EngineState.mode (s : EngineState) : SessionMode :=
  if s.isScanning then SessionMode.scanning
  else
    match s.emittingItem with
    | some id => SessionMode.emitting id
    | none => SessionMode.idle

/-- Printable ASCII test used by the round-trip claim. -/
def isPrintableAscii (s : String) : Bool :=
  s.toList.all (fun c => 0x20 ≤ c.toNat && c.toNat ≤ 0x7E)

/-- The archive prepend performed at scan completion (line 113 of the
source): the new item goes at the head of the stored list. -/
def prependScan (item : ScannedItem) (scannedItems : List ScannedItem) :
    List ScannedItem :=
  item :: scannedItems

/-- One call issued by the unmount cleanup. -/
inductive TeardownCall
  | cancelTechnologyRequest
  | hceSetEnabled (enabled : Bool)
deriving DecidableEq, Repr

/-- The HCE session value the unmount cleanup closure sees: the mount effect
(empty dependency list) registers the cleanup during the first render, when
`hceSession` still holds its useState initial value null; later
`setHceSession` calls never re-register it, so the closure keeps the null. -/
def hceSessionAtMount : Option Unit := none

/-- Embeds the cleanup returned by the mount effect (lines 42 to 45 of the
source): a best-effort radio cancellation with its failure swallowed, then
an HCE disable guarded by optional chaining on the captured session value,
that is, issued only when the captured value is non-null. -/
def teardownCalls (capturedSession : Option Unit) : List TeardownCall :=
  [TeardownCall.cancelTechnologyRequest]
    ++ (match capturedSession with
        | some _ => [TeardownCall.hceSetEnabled false]
        | none => [])

/-- Fixture: a well-formed well-known text record carrying the word
hello. -/
def validTextRecord : NdefRecord :=
  Ndef.textRecord ("hello")

/-- Fixture: a well-known text record whose payload is truncated before the
status byte, the malformed-record example of the claim. -/
def truncatedTextRecord : NdefRecord :=
  { tnf := Ndef.TNF_WELL_KNOWN, type := Ndef.RTD_TEXT, id := [],
    payload := [] }

/-- Fixture: a well-formed well-known URI record, abbreviation code 4
followed by the suffix nfc.com, decoding to https://nfc.com. -/
def validUriRecord : NdefRecord :=
  { tnf := Ndef.TNF_WELL_KNOWN, type := Ndef.RTD_URI, id := [],
    payload := [4, 110, 102, 99, 46, 99, 111, 109] }

/-- Fixture: an archived item with id old. -/
def itemOld : ScannedItem :=
  { id := "old", tagDetails := String.mk [], ndefMessage := [],
    createdAt := String.mk [] }

/-- Fixture: an archived item with id new. -/
def itemNew : ScannedItem :=
  { id := "new", tagDetails := String.mk [], ndefMessage := [],
    createdAt := String.mk [] }

/-- Fixture: an engine state emitting the old item, with an HCE session and
both items archived. -/
def emittingOldState : EngineState :=
  { isScanning := false, emittingItem := some ("old"), hceSession := true,
    nfcStatus := String.mk [], scannedItems := [itemNew, itemOld] }

/-- Fixture: an HCE driver on which every call succeeds. -/
def allOkDriver : HceCall → Bool := fun _ => true

/-- Fixture: three archived items with pairwise distinct ids. -/
def itemA : ScannedItem :=
  { id := "a1", tagDetails := String.mk [], ndefMessage := [],
    createdAt := String.mk [] }

/-- Fixture: second archived item. -/
def itemB : ScannedItem :=
  { id := "b2", tagDetails := String.mk [], ndefMessage := [],
    createdAt := String.mk [] }

/-- Fixture: third archived item. -/
def itemC : ScannedItem :=
  { id := "c3", tagDetails := String.mk [], ndefMessage := [],
    createdAt := String.mk [] }

/-- Fixture: a driver-level tag snapshot with a hardware id. -/
def sampleTag : TagEvent :=
  { id := some [0xAB, 0x04], techTypes := some [("android.nfc.tech.Ndef")],
    type := some ("NFC Forum Type 2"), maxSize := some 137,
    ndefMessage := some [validTextRecord] }

/-- Fixture: an HCE driver on which enabling the channel fails and every
other call succeeds. -/
def failEnableDriver : HceCall → Bool
  | HceCall.setEnabled true => false
  | _ => true

theorem emitContent_eq (s : String) : emitContent s = s := by
  simp only [emitContent, utf8Bytes, List.map_map]
  have h : Char.ofNat ∘ Char.toNat = id := by
    funext c
    exact Char.ofNat_toNat c
  simp [h]

theorem decode_textRecord (s : String) :
    Ndef.text.decodePayload (Ndef.textRecord s).payload = some s := by
  have h2 : Ndef.text.decodePayload (Ndef.textRecord s).payload
      = some (emitContent s) := by
    simp [Ndef.textRecord, Ndef.text.decodePayload, utf8Bytes,
      Ndef.textLanguageCode, emitContent]
  rw [h2, emitContent_eq]

/-- C4: encoding a printable ASCII string as a well-known text record and
decoding that record's payload through the text branch yields the string
back exactly, and the encoded record carries the well-known TNF and type
T. -/
theorem text_record_round_trip (s : String) (h : isPrintableAscii s = true) :
    (Ndef.textRecord s).tnf = Ndef.TNF_WELL_KNOWN
      ∧ (Ndef.textRecord s).type = Ndef.RTD_TEXT
      ∧ Ndef.text.decodePayload (Ndef.textRecord s).payload = some s :=
  ⟨rfl, rfl, decode_textRecord s⟩

theorem text_record_round_trip_witness :
    isPrintableAscii ("hello") = true
      ∧ Ndef.text.decodePayload (Ndef.textRecord ("hello")).payload
          = some ("hello") :=
  ⟨by decide, (text_record_round_trip ("hello") (by decide)).2.2⟩

/-- C8: the persisted item id is the hex encoding of the tag hardware id
concatenated with the creation timestamp when the tag id is present, and the
timestamp alone when it is absent. -/
theorem scanned_item_id_derivation (tag : TagEvent) (now : Nat)
    (nowIso : String) :
    (∀ bs, tag.id = some bs →
      (mkScannedItem tag now nowIso).id
        = Ndef.util.bytesToHexString bs ++ toString now)
    ∧ (tag.id = none → (mkScannedItem tag now nowIso).id = toString now) := by
  constructor
  · intro bs hbs
    simp [mkScannedItem, hbs]
  · intro hid
    simp [mkScannedItem, hid]

theorem scanned_item_id_derivation_witness :
    sampleTag.id = some [0xAB, 0x04]
      ∧ (mkScannedItem sampleTag 5 (String.mk [])).id
          = Ndef.util.bytesToHexString [0xAB, 0x04] ++ toString 5 :=
  ⟨rfl, (scanned_item_id_derivation sampleTag 5 (String.mk [])).1
    [0xAB, 0x04] rfl⟩

/-- C2: the claimed malformed-record isolation fails on the code.  On the
record sequence of the claim the first and third records decode normally in
isolation and the middle truncated text record fails payload decoding, yet
the renderer does not fall back to the hex line for it: `parseNdefMessage`
wraps the decoders in no exception handler, so the decode failure aborts the
whole render instead of yielding three entries. -/
theorem malformed_record_aborts_render :
    renderRecordBody validTextRecord = some ("  Decoded: hello\n")
      ∧ renderRecordBody validUriRecord = some ("  Decoded: https://nfc.com\n")
      ∧ renderRecordBody truncatedTextRecord = none
      ∧ parseNdefMessage [validTextRecord, truncatedTextRecord, validUriRecord]
          = none := by
  refine ⟨?_, ?_, ?_, ?_⟩ <;> rfl

/-- C6: the claimed teardown release of the HCE channel fails on the code.
The unmount cleanup runs against the session value its closure captured at
mount, which is null, so teardown issues only the radio cancellation and
never an HCE disable, whatever mode the engine was in. -/
theorem teardown_skips_hce_disable :
    teardownCalls hceSessionAtMount = [TeardownCall.cancelTechnologyRequest]
      ∧ TeardownCall.hceSetEnabled false ∉ teardownCalls hceSessionAtMount := by
  decide

/-- C9: a StartEmit issued with no HCE session available is rejected with
the feature-unavailable alert, changes no state, and issues no HCE call. -/
theorem emit_without_hce_rejected (s : EngineState) (item : ScannedItem)
    (driverOk : HceCall → Bool) (h : s.hceSession = false) :
    (step s (Event.emitPress item driverOk)).state = s
      ∧ (step s (Event.emitPress item driverOk)).reply = Reply.hceUnavailable
      ∧ (step s (Event.emitPress item driverOk)).hceCalls = [] := by
  cases s with
  | mk sc em hc st items =>
      subst h
      simp [step, handleEmitItem]

theorem emit_without_hce_rejected_witness :
    initialState.hceSession = false
      ∧ (step initialState (Event.emitPress itemNew allOkDriver)).state
          = initialState
      ∧ (step initialState (Event.emitPress itemNew allOkDriver)).reply
          = Reply.hceUnavailable :=
  ⟨rfl, (emit_without_hce_rejected initialState itemNew allOkDriver rfl).1,
    (emit_without_hce_rejected initialState itemNew allOkDriver rfl).2.1⟩

/-- C10: when a StartEmit that is not a toggle-off fails at the driver
(setApplication rejected, or setEnabled(true) rejected), the emitting-item
state keeps its value from before the request and the engine never reports
the emission as started. -/
theorem emit_driver_failure_keeps_state (s : EngineState) (item : ScannedItem)
    (driverOk : HceCall → Bool)
    (hns : s.emittingItem ≠ some item.id)
    (hfail : driverOk (HceCall.setApplication item.id false) = false
        ∨ driverOk (HceCall.setEnabled true) = false) :
    (step s (Event.emitPress item driverOk)).state.emittingItem
        = s.emittingItem
      ∧ (step s (Event.emitPress item driverOk)).reply ≠ Reply.emitStarted := by
  have hdec : Ndef.text.decodePayload (Ndef.textRecord item.id).payload
      = some item.id := decode_textRecord item.id
  have hne : (s.emittingItem == some item.id) = false := by
    simpa using hns
  by_cases hh : s.hceSession
  · by_cases hsc : s.isScanning
    · simp [step, handleEmitItem, hh, hsc]
    · rcases hfail with hf | hf
      · simp [step, handleEmitItem, hh, hsc, hne, hdec, hf]
      · by_cases ha : driverOk (HceCall.setApplication item.id false)
        · simp [step, handleEmitItem, hh, hsc, hne, hdec, ha, hf]
        · simp [step, handleEmitItem, hh, hsc, hne, hdec, ha]
  · simp [step, handleEmitItem, hh]

theorem emit_driver_failure_keeps_state_witness :
    (initialState.emittingItem ≠ some itemNew.id)
      ∧ failEnableDriver (HceCall.setEnabled true) = false
      ∧ (step { initialState with hceSession := true }
            (Event.emitPress itemNew failEnableDriver)).state.emittingItem
          = ({ initialState with
              hceSession := true } : EngineState).emittingItem :=
  ⟨by decide, rfl,
    (emit_driver_failure_keeps_state { initialState with hceSession := true }
      itemNew failEnableDriver (by decide) (Or.inr rfl)).1⟩

/-- C5 amended: a StartEmit for a different item while Emitting(id)
transitions to emitting the new item by one setApplication of the new
payload followed by one setEnabled(true); no disable of the channel is
issued anywhere in the switch. -/
theorem emit_switch_trace (s : EngineState) (item : ScannedItem)
    (oldId : String) (driverOk : HceCall → Bool)
    (hhce : s.hceSession = true) (hscan : s.isScanning = false)
    (hold : s.emittingItem = some oldId) (hne : item.id ≠ oldId)
    (happ : driverOk (HceCall.setApplication item.id false) = true)
    (hen : driverOk (HceCall.setEnabled true) = true) :
    (step s (Event.emitPress item driverOk)).hceCalls
        = [HceCall.setApplication item.id false, HceCall.setEnabled true]
      ∧ (step s (Event.emitPress item driverOk)).state.emittingItem
          = some item.id
      ∧ HceCall.setEnabled false
          ∉ (step s (Event.emitPress item driverOk)).hceCalls := by
  have hdec : Ndef.text.decodePayload (Ndef.textRecord item.id).payload
      = some item.id := decode_textRecord item.id
  have hne2 : (s.emittingItem == some item.id) = false := by
    simp [hold]
    exact fun hcontra => hne hcontra.symm
  simp [step, handleEmitItem, hhce, hscan, hne2, hdec, happ, hen]

/-- C5 counterexample: switching from Emitting(old) to the item with id new
reaches Emitting(new) with the call trace setApplication then
setEnabled(true); no disable precedes the re-enable because none is issued
at all, refuting the claimed disable-then-re-enable sequence. -/
theorem emit_switch_no_disable_counterexample :
    (step emittingOldState
        (Event.emitPress itemNew allOkDriver)).state.emittingItem
        = some ("new")
      ∧ HceCall.setEnabled false
          ∉ (step emittingOldState (Event.emitPress itemNew allOkDriver)).hceCalls
      ∧ (step emittingOldState (Event.emitPress itemNew allOkDriver)).hceCalls
          = [HceCall.setApplication ("new") false, HceCall.setEnabled true] := by
  decide

theorem emit_switch_trace_witness :
    (step emittingOldState (Event.emitPress itemNew allOkDriver)).hceCalls
        = [HceCall.setApplication itemNew.id false, HceCall.setEnabled true]
      ∧ (step emittingOldState
          (Event.emitPress itemNew allOkDriver)).state.emittingItem
          = some itemNew.id :=
  ⟨(emit_switch_trace emittingOldState itemNew ("old") allOkDriver rfl rfl rfl
      (by decide) rfl rfl).1,
    (emit_switch_trace emittingOldState itemNew ("old") allOkDriver rfl rfl rfl
      (by decide) rfl rfl).2.1⟩

/-- C3: a completion whose failure carries the cancellation flag or a
cancellation signature resolves to the cancelled status; a completion with
no tag resolves to the no-tag status; a driver failure with neither flag nor
signature resolves to the failed status; and the three terminal status
strings are pairwise distinct. -/
theorem scan_outcome_classification (s : EngineState) (flag : Bool)
    (errorString : String) (now : Nat) (nowIso : String) :
    ((flag = true ∨ stringIncludes errorString userCancelToken = true
        ∨ stringIncludes errorString cancelledToken = true) →
      (step s (Event.scanComplete flag (ScanOutcome.driverError errorString)
          now nowIso)).state.nfcStatus = statusScanCancelled)
    ∧ ((flag = false ∧ stringIncludes errorString userCancelToken = false
        ∧ stringIncludes errorString cancelledToken = false) →
      (step s (Event.scanComplete flag (ScanOutcome.driverError errorString)
          now nowIso)).state.nfcStatus = statusScanFailed)
    ∧ (step s (Event.scanComplete flag ScanOutcome.noTag now
        nowIso)).state.nfcStatus = statusNoTagFound
    ∧ statusScanCancelled ≠ statusScanFailed
    ∧ statusScanCancelled ≠ statusNoTagFound
    ∧ statusScanFailed ≠ statusNoTagFound := by
  refine ⟨?_, ?_, ?_, by decide, by decide, by decide⟩
  · intro hcancel
    rcases hcancel with hf | hf | hf <;> simp [step, scanErrorStatus, hf]
  · rintro ⟨h1, h2, h3⟩
    simp [step, scanErrorStatus, h1, h2, h3]
  · simp [step]

theorem scan_outcome_classification_witness :
    (step initialState (Event.scanComplete true
        (ScanOutcome.driverError (String.mk [])) 0
        (String.mk []))).state.nfcStatus
      = statusScanCancelled :=
  (scan_outcome_classification initialState true (String.mk []) 0
    (String.mk [])).1 (Or.inl rfl)

/-- C7: each completed scan prepends its item at the head of the archive, so
scans A then B then C leave the ordered view C, B, A; deletion keeps exactly
the items whose id differs from the deleted one, as a sublist of the
original order, and deleting B from C, B, A leaves C, A. -/
theorem archive_ordering (A B C : ScannedItem) (driverOk : HceCall → Bool)
    (hceSession : Bool) (hCB : C.id ≠ B.id) (hAB : A.id ≠ B.id) :
    prependScan C (prependScan B (prependScan A [])) = [C, B, A]
      ∧ (handleDeleteItem driverOk hceSession none [C, B, A]
          B.id).scannedItems = [C, A]
      ∧ (∀ (l : List ScannedItem) (id : String) (x : ScannedItem),
          x ∈ (handleDeleteItem driverOk hceSession none l id).scannedItems
            ↔ (x ∈ l ∧ x.id ≠ id))
      ∧ (∀ (l : List ScannedItem) (id : String),
          (handleDeleteItem driverOk hceSession none l
            id).scannedItems.Sublist l) := by
  refine ⟨rfl, ?_, ?_, ?_⟩
  · have h1 : (C.id != B.id) = true := by
      simp [bne_iff_ne]
      exact hCB
    have h2 : (A.id != B.id) = true := by
      simp [bne_iff_ne]
      exact hAB
    simp [handleDeleteItem, List.filter, h1, h2]
  · intro l id x
    simp [handleDeleteItem, List.mem_filter]
  · intro l id
    simp only [handleDeleteItem]
    exact List.filter_sublist l

theorem archive_ordering_witness :
    itemC.id ≠ itemB.id ∧ itemA.id ≠ itemB.id
      ∧ (handleDeleteItem allOkDriver false none [itemC, itemB, itemA]
          itemB.id).scannedItems = [itemC, itemA] :=
  ⟨by decide, by decide,
    (archive_ordering itemA itemB itemC allOkDriver false (by decide)
      (by decide)).2.1⟩

theorem handleEmitItem_scanning_keeps (driverOk : HceCall → Bool)
    (hceSession : Bool) (emittingItem : Option String) (item : ScannedItem) :
    (handleEmitItem driverOk hceSession true emittingItem
      item).emittingItem = emittingItem := by
  by_cases hh : hceSession <;> simp [handleEmitItem, hh]

theorem handleDeleteItem_none_keeps (driverOk : HceCall → Bool)
    (hceSession : Bool) (scannedItems : List ScannedItem) (id : String) :
    (handleDeleteItem driverOk hceSession none scannedItems
      id).emittingItem = none := by
  simp [handleDeleteItem]

theorem reachable_exclusive (s : EngineState) (h : Reachable s) :
    ¬(s.isScanning = true ∧ s.emittingItem.isSome = true) := by
  induction h with
  | init => simp [initialState]
  | next s e hs ih =>
      cases e with
      | hceReady => simpa [step] using ih
      | scanPress =>
          by_cases hsc : s.isScanning
          · simp [step, hsc]
          · by_cases hem : s.emittingItem.isSome
            · simp [step, hsc, hem]
            · simp [step, hsc, hem]
      | scanComplete flag outcome now nowIso =>
          cases outcome <;> simp [step]
      | emitPress item driverOk =>
          by_cases hsc : s.isScanning
          · have hkeep := handleEmitItem_scanning_keeps driverOk s.hceSession
              s.emittingItem item
            simpa [step, hsc, hkeep] using ih
          · simp [step, hsc]
      | deletePress id driverOk =>
          by_cases hsc : s.isScanning
          · have hem : s.emittingItem = none := by
              cases hem2 : s.emittingItem with
              | none => rfl
              | some v =>
                  exact absurd ⟨hsc, by simp [hem2]⟩ ih
            simp [step, hsc, hem, handleDeleteItem_none_keeps]
          · simp [step, hsc]

theorem mode_eq_scanning_iff (s : EngineState) :
    s.mode = SessionMode.scanning ↔ s.isScanning = true := by
  unfold EngineState.mode
  by_cases hsc : s.isScanning
  · simp [hsc]
  · cases hem : s.emittingItem <;> simp [hsc, hem]

theorem mode_eq_emitting_iff (s : EngineState) (id : String) :
    s.mode = SessionMode.emitting id
      ↔ (s.isScanning = false ∧ s.emittingItem = some id) := by
  unfold EngineState.mode
  by_cases hsc : s.isScanning
  · simp [hsc]
  · cases hem : s.emittingItem <;> simp [hsc, hem]

/-- C1: every reachable state has a mode, exactly one of idle, scanning or
emitting, and never both flags up at once; a StartEmit while the mode is
scanning is rejected synchronously with no state change, and a StartScan
while the mode is emitting is rejected synchronously with no state
change. -/
theorem mode_mutual_exclusion (s : EngineState) (h : Reachable s) :
    (s.mode = SessionMode.idle ∨ s.mode = SessionMode.scanning
        ∨ ∃ id, s.mode = SessionMode.emitting id)
      ∧ ¬(s.isScanning = true ∧ s.emittingItem.isSome = true)
      ∧ (∀ (item : ScannedItem) (driverOk : HceCall → Bool),
          s.mode = SessionMode.scanning →
            (step s (Event.emitPress item driverOk)).state = s
              ∧ Reply.isRejection
                  (step s (Event.emitPress item driverOk)).reply = true)
      ∧ (∀ id, s.mode = SessionMode.emitting id →
          (step s Event.scanPress).state = s
            ∧ Reply.isRejection (step s Event.scanPress).reply = true) := by
  refine ⟨?_, reachable_exclusive s h, ?_, ?_⟩
  · cases hm : s.mode with
    | idle => exact Or.inl rfl
    | scanning => exact Or.inr (Or.inl rfl)
    | emitting id => exact Or.inr (Or.inr ⟨id, rfl⟩)
  · intro item driverOk hm
    have hsc : s.isScanning = true := (mode_eq_scanning_iff s).mp hm
    have hkeep := handleEmitItem_scanning_keeps driverOk s.hceSession
      s.emittingItem item
    constructor
    · cases s with
      | mk sc em hc st items =>
          simp only at hsc
          subst hsc
          simp [step, hkeep]
    · by_cases hh : s.hceSession <;>
        simp [step, handleEmitItem, hsc, hh, Reply.isRejection]
  · intro id hm
    obtain ⟨hsc, hem⟩ := (mode_eq_emitting_iff s id).mp hm
    constructor
    · simp [step, hsc, hem]
    · simp [step, hsc, hem, Reply.isRejection]

theorem mode_mutual_exclusion_witness :
    ((step initialState Event.scanPress).state.mode = SessionMode.scanning)
      ∧ ¬((step initialState Event.scanPress).state.isScanning = true
          ∧ (step initialState Event.scanPress).state.emittingItem.isSome
              = true)
      ∧ (step (step initialState Event.scanPress).state
            (Event.emitPress itemNew allOkDriver)).state
          = (step initialState Event.scanPress).state :=
  ⟨by decide,
    (mode_mutual_exclusion (step initialState Event.scanPress).state
      (Reachable.next initialState Event.scanPress Reachable.init)).2.1,
    ((mode_mutual_exclusion (step initialState Event.scanPress).state
      (Reachable.next initialState Event.scanPress Reachable.init)).2.2.1
      itemNew allOkDriver (by decide)).1⟩
